import Mathlib

/-!
Shallow embedding of the core data model of the `embedded-touch` crate
(`src/lib.rs`): the `UnitAngle` fixed-point angle type and the `TouchPoint`
2D integer point type, together with their operations.

Conventions of the embedding:

* `fixed::types::U1F15` (the storage of `UnitAngle`) is a 16-bit unsigned
  fixed-point number with 15 fractional bits; a bit pattern `n : Fin 65536`
  denotes the value `n / 2^15 ∈ [0, 2)`, i.e. the angle `n·π / 2^15` radians.
  We represent it as `Fin 65536` (the scaled bits), exactly the set of
  representable states of the Rust type.
* `U17F15` / `I17F15` intermediates are represented by their scaled bits as
  well (`ℕ` below `2^32`, resp. `ℤ` in `[-2^31, 2^31)`); a bit value `b`
  denotes `b / 2^15`.
* `wrapping_to_fixed` from a 15-fractional-bit type into `U1F15` keeps the
  fractional bits and wraps the scaled integer modulo `2^16` (`wrap16`).
* Fixed-point division of same-typed operands with scaled bits `a` and `b`
  computes the scaled quotient `(a * 2^15) / b` with the quotient truncated
  toward zero (Rust integer division), `Int.tdiv` here; for the unsigned
  `U17F15` this is plain `Nat` floor division.
* The constant `U17F15!(3.14159265359)` rounds the literal to the nearest
  representable value: scaled bits `102944` (since `3.14159265359 · 2^15 =
  102943.708…`).  `I17F15!(180)` and `U17F15!(180.0)` are exact: `5898240`.
* Fixed-point multiplication truncates the low bits of the product:
  scaled result `(a * b) / 2^15` (floor; operands here are nonnegative).
* `to_num::<f32>` in `as_radians_f32`/`as_degrees_f32` is exact: the values
  converted are `n / 2^15` with `n < 2^24`, hence exactly representable in
  `f32`.  The two functions are therefore modelled exactly, with values
  in `ℚ`.
* The numeric parameters of the constructors are taken after conversion to
  the intermediate fixed-point type, i.e. as that type's scaled bits; this
  covers every reachable behaviour of the arithmetic that follows.
  `from_radians` and `from_degrees` use the checked conversion `to_fixed`,
  which fails (panics) when the value does not fit the intermediate type;
  `from_radians_checked` models that domain check for `from_radians`
  (`U17F15` holds only values in `[0, 2^17)`).
-/

namespace EmbeddedTouch

/-- The storage of `UnitAngle`: the bit patterns of `fixed::types::U1F15`,
a 16-bit unsigned fixed-point number with 15 fractional bits.  A value
`a : UnitAngle` denotes the angle `a.val · π / 2^15` radians, always in
`[0, 2π)`. -/
abbrev UnitAngle : Type := Fin 65536

/-- `wrapping_to_fixed` into `U1F15` from a value with 15 fractional bits:
wrap the scaled integer modulo `2^16`. -/
def wrap16 (x : ℤ) : UnitAngle := ⟨(x % 65536).toNat, by omega⟩

/-- `UnitAngle::from_pi_radians(value)`: `UnitAngle(value.wrapping_to_fixed())`.
`x` is the input in units of π radians, scaled by `2^15`. -/
def from_pi_radians (x : ℤ) : UnitAngle := wrap16 x

/-- `UnitAngle::from_radians(value)`: converts to `U17F15` (argument `r`:
the radian input scaled by `2^15`, necessarily in `[0, 2^32)`), divides by
`U17F15!(3.14159265359)` (scaled bits `102944`, quotient bits
`r * 2^15 / 102944`, floor), then wraps into `U1F15`. -/
def from_radians (r : ℕ) : UnitAngle := wrap16 ((r * 32768 / 102944 : ℕ) : ℤ)

/-- `UnitAngle::from_radians` including the domain check of its first step
`value.to_fixed::<U17F15>()`: a radian value (scaled by `2^15`) outside
`[0, 2^32)` does not fit `U17F15` and the checked conversion fails (panic);
there is no result. -/
def from_radians_checked (r : ℤ) : Option UnitAngle :=
  if 0 ≤ r ∧ r < 4294967296 then some (from_radians r.toNat) else none

/-- `UnitAngle::from_degrees(value)`: converts to `I17F15` (argument `d`:
the degree input scaled by `2^15`, in `[-2^31, 2^31)` for representable
inputs), divides by `I17F15!(180)` (scaled bits `5898240`; quotient bits
`(d * 2^15).tdiv 5898240`, truncated toward zero as in Rust), then wraps
into `U1F15`. -/
def from_degrees (d : ℤ) : UnitAngle := wrap16 ((32768 * d).tdiv 5898240)

/-- `UnitAngle::as_pi_radians()`: the stored `U1F15` bits, exactly. -/
def as_pi_radians (a : UnitAngle) : ℕ := a.val

/-- The exact value denoted by the stored angle, in units of π radians. -/
def pi_radians_q (a : UnitAngle) : ℚ := (a.val : ℚ) / 32768

/-- `UnitAngle::as_radians_f32()`: widen to `U17F15`, multiply by
`U17F15!(3.14159265359)` (scaled bits `102944`; product bits
`a.val * 102944 / 2^15`, low bits truncated), convert to `f32` (exact, see
the header).  The result as an exact rational. -/
def as_radians_f32 (a : UnitAngle) : ℚ := ((a.val * 102944 / 32768 : ℕ) : ℚ) / 32768

/-- `UnitAngle::as_degrees_f32()`: widen to `U17F15`, multiply by
`U17F15!(180.0)` (scaled bits `5898240`; product bits
`a.val * 5898240 / 2^15`, exact since `2^15 ∣ 5898240`), convert to `f32`
(exact).  The result as an exact rational. -/
def as_degrees_f32 (a : UnitAngle) : ℚ := ((a.val * 5898240 / 32768 : ℕ) : ℚ) / 32768

/-- Modelled from the spec: the mathematical reduction `d mod 360` of a real
degree value into the canonical half-open range `[0, 360)`, used to state the
spec's round-trip property (the code itself has no such function). -/
def deg_mod_360 (d : ℚ) : ℚ := d - 360 * ⌊d / 360⌋

/-- `TouchPoint`: two `i32` coordinates.  Components are integers; the
arithmetic below wraps them into `[-2^31, 2^31)` (two's complement). -/
@[ext]
structure TouchPoint where
  x : ℤ
  y : ℤ
  deriving DecidableEq

/-- Two's-complement wrapping of an integer into the `i32` range. -/
def wrap32 (z : ℤ) : ℤ := (z + 2147483648) % 4294967296 - 2147483648

/-- `z` is representable as an `i32`. -/
def in_i32 (z : ℤ) : Prop := -2147483648 ≤ z ∧ z < 2147483648

instance (z : ℤ) : Decidable (in_i32 z) := by unfold in_i32; infer_instance

/-- Both components are representable `i32` values. -/
def TouchPoint.representable (p : TouchPoint) : Prop := in_i32 p.x ∧ in_i32 p.y

instance (p : TouchPoint) : Decidable p.representable := by
  unfold TouchPoint.representable; infer_instance

/-- `impl Add for TouchPoint`: componentwise `i32` addition. -/
def TouchPoint.add (a b : TouchPoint) : TouchPoint :=
  ⟨wrap32 (a.x + b.x), wrap32 (a.y + b.y)⟩

/-- `impl AddAssign for TouchPoint`: `self.x += rhs.x; self.y += rhs.y`
(the updated value of the left operand). -/
def TouchPoint.add_assign (a b : TouchPoint) : TouchPoint :=
  ⟨wrap32 (a.x + b.x), wrap32 (a.y + b.y)⟩

/-- `impl Sub for TouchPoint`: componentwise `i32` subtraction. -/
def TouchPoint.sub (a b : TouchPoint) : TouchPoint :=
  ⟨wrap32 (a.x - b.x), wrap32 (a.y - b.y)⟩

/-- `impl SubAssign for TouchPoint`: `self.x -= rhs.x; self.y -= rhs.y`
(the updated value of the left operand). -/
def TouchPoint.sub_assign (a b : TouchPoint) : TouchPoint :=
  ⟨wrap32 (a.x - b.x), wrap32 (a.y - b.y)⟩

/-- `impl Neg for TouchPoint`: componentwise `i32` negation. -/
def TouchPoint.neg (a : TouchPoint) : TouchPoint :=
  ⟨wrap32 (-a.x), wrap32 (-a.y)⟩

lemma wrap16_val (x : ℤ) : (((wrap16 x).val : ℕ) : ℤ) = x % 65536 := by
  unfold wrap16; simp; omega

lemma wrap16_congr {x y : ℤ} (h : x % 65536 = y % 65536) : wrap16 x = wrap16 y := by
  unfold wrap16
  exact Fin.ext (show (x % 65536).toNat = (y % 65536).toNat by omega)

lemma wrap16_val_nat (n : ℕ) : ((wrap16 (n : ℤ)).val : ℕ) = n % 65536 := by
  show (((n : ℤ) % 65536)).toNat = n % 65536
  omega

lemma tmod_bounds (a : ℤ) {b : ℤ} (hb : 0 < b) : -b < a.tmod b ∧ a.tmod b < b := by
  rcases le_or_lt 0 a with ha | ha
  · exact ⟨by linarith [Int.tmod_nonneg b ha], Int.tmod_lt_of_pos a hb⟩
  · have h1 : a.tmod b = -((-a).tmod b) := by
      rw [Int.tmod_def, Int.tmod_def, Int.neg_tdiv]; ring
    have h2 : 0 ≤ (-a).tmod b := Int.tmod_nonneg b (by linarith)
    have h3 : (-a).tmod b < b := Int.tmod_lt_of_pos (-a) hb
    constructor <;> omega

lemma from_degrees_key (d : ℤ) : ∃ k r : ℤ, -5898240 < r ∧ r < 5898240 ∧
    5898240 * (((from_degrees d).val : ℕ) : ℤ) = 32768 * d - r - 386547056640 * k := by
  obtain ⟨hr1, hr2⟩ := tmod_bounds (32768 * d) (b := 5898240) (by norm_num)
  refine ⟨(32768 * d).tdiv 5898240 / 65536, (32768 * d).tmod 5898240, hr1, hr2, ?_⟩
  have hval := wrap16_val ((32768 * d).tdiv 5898240)
  have hdm : 65536 * ((32768 * d).tdiv 5898240 / 65536) + (32768 * d).tdiv 5898240 % 65536
      = (32768 * d).tdiv 5898240 := Int.ediv_add_emod _ _
  have htd : 5898240 * ((32768 * d).tdiv 5898240) + (32768 * d).tmod 5898240 = 32768 * d :=
    Int.tdiv_add_tmod _ _
  unfold from_degrees
  omega

lemma from_radians_key (r : ℕ) : ∃ k r1 : ℕ, r1 < 102944 ∧
    102944 * ((from_radians r).val : ℕ) + r1 + 6746537984 * k = 32768 * r := by
  refine ⟨r * 32768 / 102944 / 65536, r * 32768 % 102944, Nat.mod_lt _ (by norm_num), ?_⟩
  have h1 := Nat.div_add_mod (r * 32768) 102944
  have h2 := Nat.div_add_mod (r * 32768 / 102944) 65536
  have hval : ((from_radians r).val : ℕ) = r * 32768 / 102944 % 65536 := by
    unfold from_radians
    exact wrap16_val_nat _
  omega

lemma as_degrees_f32_eq (a : UnitAngle) : as_degrees_f32 a = 180 * (a.val : ℚ) / 32768 := by
  unfold as_degrees_f32
  have h : a.val * 5898240 / 32768 = 180 * a.val := by omega
  rw [h]; push_cast; ring

lemma as_radians_key (a : UnitAngle) : ∃ r2 : ℕ, r2 < 32768 ∧
    32768 * (a.val * 102944 / 32768) + r2 = a.val * 102944 :=
  ⟨a.val * 102944 % 32768, Nat.mod_lt _ (by norm_num), Nat.div_add_mod _ _⟩

/-- C8: every `UnitAngle` value, however constructed, stores a value denoting
an angle in `[0, 2π)`: the stored fixed-point value (in π-radian units) lies
in `[0, 2)`, and no out-of-range state is representable (`UnitAngle` is
exactly the 16-bit storage, all of whose states denote angles in range). -/
theorem c8_stored_angle_invariant :
    ∀ a : UnitAngle, 0 ≤ pi_radians_q a ∧ pi_radians_q a < 2 := by
  intro a
  unfold pi_radians_q
  constructor
  · positivity
  · rw [div_lt_iff₀ (by norm_num : (0 : ℚ) < 32768)]
    have h := a.isLt
    have hq : (a.val : ℚ) < 65536 := by exact_mod_cast h
    linarith

/-- C10: for every `UnitAngle`, the floating-point conversions stay within the
canonical range: `as_degrees_f32` returns a value in `[0, 360)` and
`as_radians_f32` returns a value in `[0, 2π)`. -/
theorem c10_conversions_in_range : ∀ a : UnitAngle,
    (0 ≤ as_degrees_f32 a ∧ as_degrees_f32 a < 360) ∧
    (0 ≤ as_radians_f32 a ∧ ((as_radians_f32 a : ℚ) : ℝ) < 2 * Real.pi) := by
  intro a
  have hv : a.val ≤ 65535 := by have := a.isLt; omega
  refine ⟨⟨?_, ?_⟩, ?_, ?_⟩
  · unfold as_degrees_f32; positivity
  · rw [as_degrees_f32_eq, div_lt_iff₀ (by norm_num : (0 : ℚ) < 32768)]
    have hq : (a.val : ℚ) ≤ 65535 := by exact_mod_cast hv
    linarith
  · unfold as_radians_f32; positivity
  · have hle : a.val * 102944 / 32768 ≤ 205884 := by
      have h1 : a.val * 102944 ≤ 65535 * 102944 := Nat.mul_le_mul_right _ hv
      omega
    have hR : ((as_radians_f32 a : ℚ) : ℝ) = ((a.val * 102944 / 32768 : ℕ) : ℝ) / 32768 := by
      unfold as_radians_f32; push_cast; ring
    rw [hR, div_lt_iff₀ (by norm_num : (0 : ℝ) < 32768)]
    have h2 : ((a.val * 102944 / 32768 : ℕ) : ℝ) ≤ 205884 := by exact_mod_cast hle
    have hpi := Real.pi_gt_d6
    linarith

/-- C6: for every value already in `[0, 2)` exactly representable in the
canonical `U1F15` format (scaled bits `n < 2^16`, value `n / 2^15`),
`from_pi_radians` stores it unchanged and `as_pi_radians` returns exactly it:
no precision loss. -/
theorem c6_from_pi_radians_lossless : ∀ n : ℕ, n < 65536 →
    as_pi_radians (from_pi_radians (n : ℤ)) = n ∧
    pi_radians_q (from_pi_radians (n : ℤ)) = (n : ℚ) / 32768 := by
  intro n hn
  have hval : ((from_pi_radians (n : ℤ)).val : ℕ) = n := by
    unfold from_pi_radians
    rw [wrap16_val_nat]
    omega
  refine ⟨hval, ?_⟩
  unfold pi_radians_q
  rw [hval]

/-- Witness for C6 at the representable value `40000 / 2^15` (≈ 1.22, an
angle in the upper half of the range). -/
theorem c6_witness : as_pi_radians (from_pi_radians ((40000 : ℕ) : ℤ)) = 40000 ∧
    pi_radians_q (from_pi_radians ((40000 : ℕ) : ℤ)) = ((40000 : ℕ) : ℚ) / 32768 :=
  c6_from_pi_radians_lossless 40000 (by norm_num)

/-- C9: in-place subtraction agrees with binary subtraction componentwise:
`a -= b` leaves `a` equal to `a - b`. -/
theorem c9_sub_assign_agrees :
    ∀ a b : TouchPoint, TouchPoint.sub_assign a b = TouchPoint.sub a b :=
  fun _ _ => rfl

/-- C2 (code bug): `from_radians` is not total.  Its first step is the
checked conversion `value.to_fixed::<U17F15>()`, whose target is unsigned:
the radian input `-1.0` (scaled bits `-32768`) does not fit and the
conversion fails (panics) instead of wrapping the angle modulo `2π`, even
though the claim (and the function's own doc comment) promises wrapping
with no failure path. -/
theorem c2_from_radians_negative_fails : from_radians_checked (-32768) = none := by decide

/-- C5 (amended): `from_degrees(d)` and `from_degrees(d + 360·k)` produce
identical stored values whenever `d` and `d + 360·k` lie on the same side of
zero (both `≥ 0` or both `≤ 0`); in particular `from_degrees(-90)` equals
`from_degrees(270)` (their shared division by 180 is exact).  Degree values
are scaled by `2^15`; one full turn is `11796480`. -/
theorem c5_periodicity_same_sign :
    (∀ d k : ℤ, (0 ≤ d ∧ 0 ≤ d + 11796480 * k) ∨ (d ≤ 0 ∧ d + 11796480 * k ≤ 0) →
      from_degrees (d + 11796480 * k) = from_degrees d) ∧
    from_degrees ((-90) * 32768) = from_degrees (270 * 32768) := by
  constructor
  · intro d k h
    unfold from_degrees
    apply wrap16_congr
    rcases h with ⟨h1, h2⟩ | ⟨h1, h2⟩
    · rw [Int.tdiv_eq_ediv (by linarith) (by norm_num),
          Int.tdiv_eq_ediv (by linarith) (by norm_num)]
      have e1 : 32768 * (d + 11796480 * k) = 32768 * d + 65536 * k * 5898240 := by ring
      rw [e1, Int.add_mul_ediv_right _ _ (by norm_num : (5898240 : ℤ) ≠ 0)]
      omega
    · have e1 : ∀ X : ℤ, 0 ≤ -X → X.tdiv 5898240 = -(-X / 5898240) := by
        intro X hX
        have h5 := Int.neg_tdiv (-X) 5898240
        rw [neg_neg] at h5
        rw [h5, Int.tdiv_eq_ediv hX (by norm_num)]
      rw [e1 _ (by linarith), e1 _ (by linarith)]
      have e2 : -(32768 * (d + 11796480 * k)) = -(32768 * d) + -65536 * k * 5898240 := by ring
      rw [e2, Int.add_mul_ediv_right _ _ (by norm_num : (5898240 : ℤ) ≠ 0)]
      omega
  · decide

/-- Counterexample for C5 as stated: for the degree input `-1` and `k = 1`
(the inputs `-1°` and `359°`), the stored values differ (by one unit in the
last place: the truncated-toward-zero division rounds up on the negative
side and down on the positive side). -/
theorem c5_counterexample :
    ¬ from_degrees ((-1) * 32768 + 11796480 * 1) = from_degrees ((-1) * 32768) := by decide

/-- Witness for C5: the same-sign case applied at `d = 1°`, `k = 2`, and the
`-90°` / `270°` scenario. -/
theorem c5_witness :
    from_degrees (32768 + 11796480 * 2) = from_degrees 32768 ∧
    from_degrees ((-90) * 32768) = from_degrees (270 * 32768) :=
  ⟨c5_periodicity_same_sign.1 32768 2 (Or.inl ⟨by norm_num, by norm_num⟩),
   c5_periodicity_same_sign.2⟩

/-- C1 (amended): construction wraps into the canonical range congruently to
the input modulo the full circle, exactly for `from_pi_radians`, and up to
the fixed-point rounding of one truncated division (strictly less than one
unit in the last place, `2^-15` in π-radian units) for `from_degrees` and
`from_radians` — the latter measured against the code's fixed-point π
constant `102944 / 2^15`.  In particular the degree inputs `360`, `720`,
`-360` and `0` all produce the same stored angle, `0`.  (Inputs are scaled
by `2^15`; angles are compared in π-radian units, so the full circle is `2`.) -/
theorem c1_wrapping_rule :
    (∀ x : ℤ, ∃ k : ℤ, pi_radians_q (from_pi_radians x) = (x : ℚ) / 32768 - 2 * k) ∧
    (∀ d : ℤ, ∃ k : ℤ,
      |pi_radians_q (from_degrees d) - ((d : ℚ) / 5898240 - 2 * k)| ≤ 1 / 32768) ∧
    (∀ r : ℕ, ∃ k : ℤ,
      |pi_radians_q (from_radians r) - ((r : ℚ) / 102944 - 2 * k)| ≤ 1 / 32768) ∧
    (from_degrees (360 * 32768) = from_degrees 0 ∧ from_degrees (720 * 32768) = from_degrees 0 ∧
      from_degrees ((-360) * 32768) = from_degrees 0 ∧ as_pi_radians (from_degrees 0) = 0) := by
  refine ⟨?_, ?_, ?_, by decide⟩
  · intro x
    refine ⟨x / 65536, ?_⟩
    unfold pi_radians_q from_pi_radians
    have hv : (((wrap16 x).val : ℕ) : ℤ) = x - 65536 * (x / 65536) := by
      rw [wrap16_val]; omega
    have hvQ : (((wrap16 x).val : ℕ) : ℚ) = (x : ℚ) - 65536 * ((x / 65536 : ℤ) : ℚ) := by
      exact_mod_cast hv
    rw [hvQ]; ring
  · intro d
    obtain ⟨k, r, hr1, hr2, heq⟩ := from_degrees_key d
    refine ⟨k, ?_⟩
    have heqQ : (5898240 : ℚ) * (((from_degrees d).val : ℕ) : ℚ)
        = 32768 * d - r - 386547056640 * k := by exact_mod_cast heq
    have hd : pi_radians_q (from_degrees d) - ((d : ℚ) / 5898240 - 2 * k)
        = -r / 193273528320 := by
      unfold pi_radians_q
      linear_combination heqQ / 193273528320
    rw [hd, abs_div, abs_neg, abs_of_pos (by norm_num : (0 : ℚ) < 193273528320)]
    rw [div_le_iff₀ (by norm_num : (0 : ℚ) < 193273528320)]
    have hrQ : |(r : ℚ)| ≤ 5898240 := by
      rw [abs_le]
      constructor
      · exact_mod_cast hr1.le
      · exact_mod_cast hr2.le
    linarith
  · intro r
    obtain ⟨k, r1, hr1, heq⟩ := from_radians_key r
    refine ⟨(k : ℤ), ?_⟩
    have heqQ : (102944 : ℚ) * (((from_radians r).val : ℕ) : ℚ) + r1 + 6746537984 * k
        = 32768 * r := by exact_mod_cast heq
    have hd : pi_radians_q (from_radians r) - ((r : ℚ) / 102944 - 2 * ((k : ℤ) : ℚ))
        = -(r1 : ℚ) / 3373268992 := by
      unfold pi_radians_q
      push_cast
      linear_combination heqQ / 3373268992
    rw [hd, abs_div, abs_neg, abs_of_pos (by norm_num : (0 : ℚ) < 3373268992)]
    rw [div_le_iff₀ (by norm_num : (0 : ℚ) < 3373268992)]
    have hrQ : |(r1 : ℚ)| ≤ 102944 := by
      have h0 : (0 : ℚ) ≤ (r1 : ℚ) := by positivity
      rw [abs_le]
      constructor
      · linarith
      · exact_mod_cast hr1.le
    linarith

/-- Counterexample for C1 as stated: for the degree input `1` (scaled bits
`32768`), the stored angle is not exactly congruent to `1° = 1/180` π radians
modulo the full circle: the truncated quotient `182 / 2^15` differs from any
value congruent to `1/180` (mod 2). -/
theorem c1_counterexample :
    ¬ ∃ k : ℤ, pi_radians_q (from_degrees 32768) = (32768 : ℚ) / 5898240 - 2 * k := by
  rintro ⟨k, hk⟩
  have hval : ((from_degrees 32768).val : ℕ) = 182 := by decide
  have hvalQ : (((from_degrees 32768).val : ℕ) : ℚ) = 182 := by rw [hval]; norm_num
  unfold pi_radians_q at hk
  rw [hvalQ] at hk
  have h2 : (1474560 : ℚ) * k = 1 := by linear_combination (737280 : ℚ) * hk
  have h3 : (1474560 : ℤ) * k = 1 := by exact_mod_cast h2
  omega

/-- C3 (amended): for every representable degree input `d` (scaled by `2^15`),
`as_degrees_f32 (from_degrees d)` equals a representative `d - 360·k` of
`d mod 360` to within `0.01` (indeed within `180/2^15 < 0.0055`); equivalently
it equals `d mod 360` within `0.01` in circular distance.  The returned
representative is the one in `[0, 360)` except when `d` is negative and within
`180/2^15` degrees below a multiple of `360`. -/
theorem c3_degrees_roundtrip_congruent : ∀ d : ℤ, ∃ k : ℤ,
    |as_degrees_f32 (from_degrees d) - ((d : ℚ) / 32768 - 360 * k)| ≤ 1 / 100 := by
  intro d
  obtain ⟨k, r, hr1, hr2, heq⟩ := from_degrees_key d
  refine ⟨k, ?_⟩
  have heqQ : (5898240 : ℚ) * (((from_degrees d).val : ℕ) : ℚ)
      = 32768 * d - r - 386547056640 * k := by exact_mod_cast heq
  have hd : as_degrees_f32 (from_degrees d) - ((d : ℚ) / 32768 - 360 * k)
      = -r / 1073741824 := by
    rw [as_degrees_f32_eq]
    linear_combination heqQ / 1073741824
  rw [hd, abs_div, abs_neg, abs_of_pos (by norm_num : (0 : ℚ) < 1073741824)]
  rw [div_le_iff₀ (by norm_num : (0 : ℚ) < 1073741824)]
  have hrQ : |(r : ℚ)| ≤ 5898240 := by
    rw [abs_le]
    constructor
    · exact_mod_cast hr1.le
    · exact_mod_cast hr2.le
  linarith

/-- Counterexample for C3 as stated: at the degree input `-1/2^15` (scaled
bits `-1`, reachable e.g. from the exactly representable `f32` value
`-0.000030517578125`), `d mod 360` mapped into `[0, 360)` is
`360 - 1/32768 ≈ 359.99997`, but the function returns `0`: the plain distance
is almost `360`, far above `0.01` (only the circular distance is small). -/
theorem c3_counterexample :
    1 / 100 < |as_degrees_f32 (from_degrees (-1)) - deg_mod_360 ((-1 : ℚ) / 32768)| := by
  have hval : ((from_degrees (-1)).val : ℕ) = 0 := by decide
  have h1 : as_degrees_f32 (from_degrees (-1)) = 0 := by
    rw [as_degrees_f32_eq, hval]; norm_num
  have hfl : ⌊((-1 : ℚ) / 32768) / 360⌋ = -1 := by
    rw [Int.floor_eq_iff]
    norm_num
  have h2 : deg_mod_360 ((-1 : ℚ) / 32768) = 360 - 1 / 32768 := by
    unfold deg_mod_360
    rw [hfl]
    norm_num
  rw [h1, h2, zero_sub, abs_neg, abs_of_pos (by norm_num : (0 : ℚ) < 360 - 1 / 32768)]
  norm_num

/-- C4 (amended): for every representable radian input `r` (scaled by `2^15`),
the round trip `as_radians_f32 (from_radians r)` is within `0.001` (indeed
within `135710/2^30 < 0.00013`) of `r - 2·C·k` for some integer `k`, where
`C = 102944/2^15` is the code's fixed-point approximation of π — i.e. of `r`
reduced modulo twice that constant, not modulo `2π`: the approximation error
`C - π ≈ 8.9·10^-6` accumulates with every full wrap, and the claimed `0.001`
agreement with `r mod 2π` survives only for small `r`. -/
theorem c4_radians_roundtrip_constant : ∀ r : ℕ, ∃ k : ℕ,
    |as_radians_f32 (from_radians r) - ((r : ℚ) / 32768 - 2 * (102944 / 32768) * k)| ≤ 1 / 1000 := by
  intro r
  obtain ⟨k, r1, hr1, heq⟩ := from_radians_key r
  obtain ⟨r2, hr2, ho⟩ := as_radians_key (from_radians r)
  refine ⟨k, ?_⟩
  have heqQ : (102944 : ℚ) * (((from_radians r).val : ℕ) : ℚ) + r1 + 6746537984 * k
      = 32768 * r := by exact_mod_cast heq
  have hoQ : (32768 : ℚ) * (((from_radians r).val * 102944 / 32768 : ℕ) : ℚ) + r2
      = (((from_radians r).val : ℕ) : ℚ) * 102944 := by exact_mod_cast ho
  have hd : as_radians_f32 (from_radians r) - ((r : ℚ) / 32768 - 2 * (102944 / 32768) * k)
      = -((r1 : ℚ) + r2) / 1073741824 := by
    unfold as_radians_f32
    linear_combination (hoQ + heqQ) / 1073741824
  rw [hd, abs_div, abs_neg, abs_of_pos (by norm_num : (0 : ℚ) < 1073741824)]
  rw [div_le_iff₀ (by norm_num : (0 : ℚ) < 1073741824)]
  have hb : |(r1 : ℚ) + r2| ≤ 135710 := by
    have hq1 : (r1 : ℚ) ≤ 102943 := by exact_mod_cast Nat.lt_succ_iff.mp (by omega)
    have hq2 : (r2 : ℚ) ≤ 32767 := by exact_mod_cast Nat.lt_succ_iff.mp (by omega)
    have h0 : (0 : ℚ) ≤ (r1 : ℚ) + r2 := by positivity
    rw [abs_le]
    constructor
    · linarith
    · linarith
  linarith

/-- Counterexample for C4 as stated: the radian input `411775/2^15 ≈ 12.5664`
lies in `[4π, 6π)`, so `r mod 2π` is its tiny offset above `4π`
(about `5·10^-6`); but two wraps by the slightly-too-large constant `C` leave
the computed angle just below the top of the range, `205884/2^15 ≈ 6.2831`:
the round trip misses `r mod 2π` by far more than `0.001`. -/
theorem c4_counterexample :
    2 * Real.pi * 2 ≤ (411775 : ℝ) / 32768 ∧ (411775 : ℝ) / 32768 < 2 * Real.pi * 3 ∧
    1 / 1000 < |((as_radians_f32 (from_radians 411775) : ℚ) : ℝ)
      - ((411775 : ℝ) / 32768 - 2 * Real.pi * 2)| := by
  have hval : ((from_radians 411775).val : ℕ) = 65535 := by decide
  have h1 : as_radians_f32 (from_radians 411775) = 205884 / 32768 := by
    unfold as_radians_f32
    rw [hval]
    norm_num
  have hpiL := Real.pi_gt_d6
  have hpiU := Real.pi_lt_d6
  have h2 : ((as_radians_f32 (from_radians 411775) : ℚ) : ℝ) = 205884 / 32768 := by
    rw [h1]; norm_num
  refine ⟨by linarith, by linarith, ?_⟩
  rw [h2, abs_of_pos (by linarith)]
  linarith

/-- C7: TouchPoint componentwise arithmetic under two's-complement (wrap
modulo `2^32`) semantics: for representable points, `(a + b) - b = a`,
`-(-a) = a`, and `a += b` produces `a + b`. -/
theorem c7_point_arithmetic : ∀ a b : TouchPoint,
    a.representable → b.representable →
    TouchPoint.sub (TouchPoint.add a b) b = a ∧
    TouchPoint.neg (TouchPoint.neg a) = a ∧
    TouchPoint.add_assign a b = TouchPoint.add a b := by
  intro a b ha hb
  unfold TouchPoint.representable in_i32 at ha hb
  obtain ⟨⟨hax1, hax2⟩, hay1, hay2⟩ := ha
  obtain ⟨⟨hbx1, hbx2⟩, hby1, hby2⟩ := hb
  refine ⟨?_, ?_, rfl⟩
  · unfold TouchPoint.sub TouchPoint.add wrap32
    ext
    · simp only
      omega
    · simp only
      omega
  · unfold TouchPoint.neg wrap32
    ext
    · simp only
      omega
    · simp only
      omega

/-- Witness for C7 at points exercising the wrapping: `a = (2^31 - 1, -2^31)`,
`b = (1, -1)` (both sums overflow the `i32` range and wrap). -/
theorem c7_witness :
    TouchPoint.sub (TouchPoint.add ⟨2147483647, -2147483648⟩ ⟨1, -1⟩) ⟨1, -1⟩
      = ⟨2147483647, -2147483648⟩ ∧
    TouchPoint.neg (TouchPoint.neg (⟨2147483647, -2147483648⟩ : TouchPoint))
      = ⟨2147483647, -2147483648⟩ ∧
    TouchPoint.add_assign (⟨2147483647, -2147483648⟩ : TouchPoint) ⟨1, -1⟩
      = TouchPoint.add ⟨2147483647, -2147483648⟩ ⟨1, -1⟩ :=
  c7_point_arithmetic ⟨2147483647, -2147483648⟩ ⟨1, -1⟩ (by decide) (by decide)

end EmbeddedTouch
